import Mathlib

/-!
# go-linkedin: the profile client

A shallow embedding of `linkedin.go`: the client constructor `NewClient`, the
field-selector loop and URL construction of `BasicProfile`, the calls it makes
into `net/http` and `encoding/json`, and what it returns.

The standard library is outside the repository.  Its input/output behaviour is
supplied by an environment `Env` (URL parsing, the HTTP round trip, the JSON
text scanner); the reflective decoding of a JSON value into a Go value, which
is a pure function of the value and of the struct declarations of the source,
is written out.
-/

namespace Linkedin

/-! ## Go values used by the client -/

/-- A Go `error` value: one made by `errors.New`, a `*json.UnmarshalTypeError`
(its `Value` and the name of its `Type`), or an error produced inside the
standard library (URL parsing, transport, body read, JSON syntax). -/
inductive GoError
  | errorString (s : String)
  | unmarshalTypeError (value : String) (type : String)
  | external (description : String)
  deriving DecidableEq, Repr

/-- The bytes of a response body. -/
abbrev Bytes := List UInt8

/-- `const ErrInvalidClient = "Invalid Client"` -/
def ErrInvalidClient : String := "Invalid Client"

/-- `errors.New(msg)` -/
def errorsNew (msg : String) : GoError := .errorString msg

/-- `type Client struct { accessToken string }` -/
structure Client where
  accessToken : String
  deriving DecidableEq, Repr

/-- `func NewClient(accessToken string) (c *Client, err error)`; a nil pointer
or nil error is `none`. -/
def NewClient (accessToken : String) : Option Client × Option GoError :=
  if accessToken = "" then
    (none, some (errorsNew ErrInvalidClient))
  else
    (some { accessToken := accessToken }, none)

/-- `var allFields = []string{...}` -/
def allFields : List String :=
  ["first-name", "last-name", "maiden-name",
   "formatted-name", "phonetic-first-name", "phonetic-last-name", "formatted-phonetic-name",
   "headline", "current-share", "num-connections", "num-connections-capped", "summary",
   "specialties", "picture-url", "site-standard-profile-request", "api-standard-profile-request",
   "public-profile-url", "email-address", "industry", "picture-urls::(original)", "location",
   "positions", "id"]

/-! ## The field selector and the URL -/

/-- The substitution `if len(fields) == 1 && fields[0] == "all" { fields = allFields }`. -/
def resolveFields (fields : List String) : List String :=
  if fields.length = 1 ∧ fields.head? = some "all" then allFields else fields

/-- One iteration of `for i, field := range fields`, where `n` is `len(fields)`
and `fieldStr` the string built so far. -/
def fieldStep (n : Nat) (fieldStr : String) (i : Nat) (field : String) : String :=
  let s0 := if i = 0 then ":(" else fieldStr
  let s1 := if i > 0 then s0 ++ "," else s0
  let s2 := s1 ++ field
  if i = n - 1 then s2 ++ ")" else s2

/-- The loop over the fields from index `i` on. -/
def fieldLoop (n : Nat) : Nat → List String → String → String
  | _, [], fieldStr => fieldStr
  | i, field :: rest, fieldStr => fieldLoop n (i + 1) rest (fieldStep n fieldStr i field)

/-- The value of `fieldStr` after the loop of `BasicProfile`. -/
def fieldSelector (fields : List String) : String :=
  let fields := resolveFields fields
  fieldLoop fields.length 0 fields ""

/-- `fmt.Sprintf("https://api.linkedin.com/v1/people/~%s?format=json", fieldStr)` -/
def profileURL (fields : List String) : String :=
  "https://api.linkedin.com/v1/people/~" ++ fieldSelector fields ++ "?format=json"

/-! ## Go types and values, as `encoding/json` sees them through reflection -/

/-- The Go types that occur in the structs of the source.  A struct carries
its type name and, per exported field, the Go field name, the JSON name (the
`json:"..."` tag when there is one, the field name otherwise) and the type. -/
inductive GoType
  | string
  | int
  | bool
  | slice (elem : GoType)
  | struct (name : String) (fields : List (String × String × GoType))
  deriving Repr

/-- Values of those types.  A struct value lists its fields by Go name in
declaration order.  A non-nil slice has its elements and `spare`, the contents
of its backing array between length and capacity that an earlier truncation
left behind. -/
inductive GoVal
  | string (s : String)
  | int (n : Int)
  | bool (b : Bool)
  | nilSlice
  | slice (elems : List GoVal) (spare : List GoVal)
  | struct (fields : List (String × GoVal))
  deriving Repr

mutual
/-- The zero value of a type. -/
def zero : GoType → GoVal
  | .string => .string ""
  | .int => .int 0
  | .bool => .bool false
  | .slice _ => .nilSlice
  | .struct _ fields => .struct (zeroFields fields)
/-- The zero values of the fields of a struct. -/
def zeroFields : List (String × String × GoType) → List (String × GoVal)
  | [] => []
  | (name, _, t) :: rest => (name, zero t) :: zeroFields rest
end

/-- `reflect.Type.String()` -/
def typeString : GoType → String
  | .string => "string"
  | .int => "int"
  | .bool => "bool"
  | .slice t => "[]" ++ typeString t
  | .struct name _ => name

/-- `type Date struct { Month int; Year int }` -/
def Date : GoType :=
  .struct "linkedin.Date" [("Month", "Month", .int), ("Year", "Year", .int)]

/-- `type Country struct { Name string; Code string }` -/
def Country : GoType :=
  .struct "linkedin.Country" [("Name", "Name", .string), ("Code", "Code", .string)]

/-- `type Location struct { Name string; Country Country }` -/
def Location : GoType :=
  .struct "linkedin.Location" [("Name", "Name", .string), ("Country", "Country", Country)]

/-- `type Company struct { Id int; Industry string; Name string; Size string; Type string }` -/
def Company : GoType :=
  .struct "linkedin.Company"
    [("Id", "Id", .int), ("Industry", "Industry", .string), ("Name", "Name", .string),
     ("Size", "Size", .string), ("Type", "Type", .string)]

/-- `type Position struct { ... }`, a work position. -/
def Position : GoType :=
  .struct "linkedin.Position"
    [("Id", "Id", .int), ("IsCurrent", "IsCurrent", .bool), ("Title", "Title", .string),
     ("Summary", "Summary", .string), ("Location", "Location", Location),
     ("StartDate", "StartDate", Date), ("EndDate", "EndDate", Date),
     ("Company", "Company", Company)]

/-- `type positions struct { Total int [json:"_total"]; Values []Position }` -/
def positions : GoType :=
  .struct "linkedin.positions" [("Total", "_total", .int), ("Values", "Values", .slice Position)]

/-- `type pictures struct { Total int [json:"_total"]; URLs []string [json:"values"] }` -/
def pictures : GoType :=
  .struct "linkedin.pictures" [("Total", "_total", .int), ("URLs", "values", .slice .string)]

/-- The fields of `type Profile struct { ... }`, in declaration order. -/
def profileFields : List (String × String × GoType) :=
  [("Id", "Id", .string),
   ("FirstName", "FirstName", .string),
   ("LastName", "LastName", .string),
   ("MaidenName", "MaidenName", .string),
   ("FormattedName", "FormattedName", .string),
   ("PhoneticFirstName", "PhoneticFirstName", .string),
   ("PhoneticLastName", "PhoneticLastName", .string),
   ("FormattedPhoneticName", "FormattedPhoneticName", .string),
   ("Headline", "Headline", .string),
   ("Industry", "Industry", .string),
   ("NumConnections", "NumConnections", .int),
   ("NumConnectionsCapped", "NumConnectionsCapped", .bool),
   ("Summary", "Summary", .string),
   ("Specialties", "Specialties", .string),
   ("Positions", "Positions", positions),
   ("PictureURL", "PictureURL", .string),
   ("PictureURLs", "PictureURLs", pictures),
   ("PublicProfileURL", "PublicProfileURL", .string),
   ("EmailAddress", "EmailAddress", .string),
   ("Location", "Location", Location)]

/-- `type Profile struct { ... }`, a LinkedIn user's profile information. -/
def Profile : GoType := .struct "linkedin.Profile" profileFields

/-! ## `encoding/json`: decoding a JSON value into a Go value -/

/-- A JSON value as the scanner of `encoding/json` delivers it: a number is
its literal, an object its members in the order of the text (a key may
repeat). -/
inductive JSON
  | null
  | bool (b : Bool)
  | num (lit : String)
  | str (s : String)
  | arr (elems : List JSON)
  | obj (members : List (String × JSON))
  deriving Repr

/-- Case folding of one character of a name, as `foldName` of `encoding/json`
does it: an ASCII lower-case letter goes to upper case, the Kelvin sign
(U+212A) to `K`, the long s (U+017F) to `S`.  On other characters this is the
identity; it agrees with Unicode simple folding whenever one of the two names
compared is ASCII, as every field name of the source is. -/
def foldRune (c : Char) : Char :=
  if 'a' ≤ c ∧ c ≤ 'z' then Char.ofNat (c.toNat - 32)
  else if c = Char.ofNat 0x212A then 'K'
  else if c = Char.ofNat 0x17F then 'S'
  else c

/-- The folded form of a name; two names match case-insensitively when their
folded forms are equal. -/
def foldName (s : String) : String := String.mk (s.data.map foldRune)

/-- The struct field an object key selects: the field whose JSON name is the
key exactly, otherwise the first field whose JSON name matches the key
case-insensitively, otherwise none (the member is skipped). -/
def findField (fields : List (String × String × GoType)) (key : String) :
    Option (String × String × GoType) :=
  match fields.find? (fun f => f.2.1 = key) with
  | some f => some f
  | none => fields.find? (fun f => foldName f.2.1 = foldName key)

/-- `v.Field(i)` by name; `dflt` when the value has no such field. -/
def getField (fs : List (String × GoVal)) (name : String) (dflt : GoVal) : GoVal :=
  match fs.find? (fun f => f.1 = name) with
  | some f => f.2
  | none => dflt

/-- Assignment to the field `name`. -/
def setField : List (String × GoVal) → String → GoVal → List (String × GoVal)
  | [], _, _ => []
  | (n, v) :: rest, name, w =>
      if n = name then (n, w) :: rest else (n, v) :: setField rest name w

/-- The value of a string of decimal digits, `none` when a character is not a digit. -/
def digitsValue : List Char → Nat → Option Nat
  | [], acc => some acc
  | c :: cs, acc => if c.isDigit then digitsValue cs (acc * 10 + (c.toNat - 48)) else none

/-- The magnitude of a signed decimal literal, `none` when it is empty or not
all digits. -/
def magnitude (ds : List Char) : Option Nat :=
  if ds = [] then none else digitsValue ds 0

/-- `strconv.ParseInt(lit, 10, 64)`: an optional sign and decimal digits, in
the range of a 64-bit `int`. -/
def parseInt64 (lit : String) : Option Int :=
  match lit.data with
  | '-' :: ds =>
      match magnitude ds with
      | some n => if n ≤ 2 ^ 63 then some (-(n : Int)) else none
      | none => none
  | '+' :: ds =>
      match magnitude ds with
      | some n => if n < 2 ^ 63 then some (n : Int) else none
      | none => none
  | ds =>
      match magnitude ds with
      | some n => if n < 2 ^ 63 then some (n : Int) else none
      | none => none

/-- `&UnmarshalTypeError{Value: value, Type: t}` -/
def typeError (value : String) (t : GoType) : GoError :=
  .unmarshalTypeError value (typeString t)

/-- The backing array of a slice value up to its capacity. -/
def backing : GoVal → List GoVal
  | .slice elems spare => elems ++ spare
  | _ => []

/-- The fields of a struct value. -/
def structFields : GoVal → List (String × GoVal)
  | .struct fs => fs
  | _ => []

mutual
/-- `(*decodeState).value`: decode the JSON value into the Go value `cur` of
type `t`.  Returns the new value and the first type error met; after a type
error the target is left as it was and decoding goes on. -/
def decodeValue : JSON → GoType → GoVal → GoVal × Option GoError
  | .null, .slice _, _ => (.nilSlice, none)
  | .null, _, cur => (cur, none)
  | .bool b, .bool, _ => (.bool b, none)
  | .bool _, t, cur => (cur, some (typeError "bool" t))
  | .str s, .string, _ => (.string s, none)
  | .str _, t, cur => (cur, some (typeError "string" t))
  | .num lit, .int, cur =>
      match parseInt64 lit with
      | some n => (.int n, none)
      | none => (cur, some (typeError ("number " ++ lit) .int))
  | .num _, t, cur => (cur, some (typeError "number" t))
  | .arr [], .slice _, _ => (.slice [] [], none)
  | .arr (x :: xs), .slice et, cur =>
      let r := decodeElems (x :: xs) et (backing cur)
      (.slice r.1 r.2.1, r.2.2)
  | .arr _, t, cur => (cur, some (typeError "array" t))
  | .obj kvs, .struct _ fields, cur =>
      let r := decodeMembers kvs fields (structFields cur)
      (.struct r.1, r.2)
  | .obj _, t, cur => (cur, some (typeError "object" t))
termination_by structural j => j
/-- `(*decodeState).array` on a slice: element `i` of the text is decoded into
element `i` of the backing array (a zero element beyond its capacity); returns
the decoded elements, what is left of the backing array, and the first error. -/
def decodeElems : List JSON → GoType → List GoVal → List GoVal × List GoVal × Option GoError
  | [], _, back => ([], back, none)
  | x :: xs, et, back =>
      let r := decodeValue x et (back.head?.getD (zero et))
      let rs := decodeElems xs et back.tail
      (r.1 :: rs.1, rs.2.1, r.2 <|> rs.2.2)
termination_by structural xs => xs
/-- `(*decodeState).object` on a struct: each member whose key selects a field
is decoded into that field, in the order of the text; other members are
skipped. -/
def decodeMembers : List (String × JSON) → List (String × String × GoType) →
    List (String × GoVal) → List (String × GoVal) × Option GoError
  | [], _, cur => (cur, none)
  | (k, v) :: rest, fields, cur =>
      match findField fields k with
      | none => decodeMembers rest fields cur
      | some f =>
          let r := decodeValue v f.2.2 (getField cur f.1 (zero f.2.2))
          let rs := decodeMembers rest fields (setField cur f.1 r.1)
          (rs.1, r.2 <|> rs.2)
termination_by structural kvs => kvs
end

mutual
/-- The JSON value has the shape of the Go type: `null` anywhere, a boolean
for `bool`, a string for `string`, an integer literal in range for `int`, an
array of conforming elements for a slice, an object whose members that select
a field conform to it for a struct. -/
def conforms : JSON → GoType → Bool
  | .null, _ => true
  | .bool _, .bool => true
  | .bool _, _ => false
  | .str _, .string => true
  | .str _, _ => false
  | .num lit, .int => (parseInt64 lit).isSome
  | .num _, _ => false
  | .arr xs, .slice et => elemsConform xs et
  | .arr _, _ => false
  | .obj kvs, .struct _ fields => membersConform kvs fields
  | .obj _, _ => false
termination_by structural j => j
/-- Every element conforms to the element type. -/
def elemsConform : List JSON → GoType → Bool
  | [], _ => true
  | x :: xs, et => conforms x et && elemsConform xs et
termination_by structural xs => xs
/-- Every member whose key selects a field conforms to the field's type. -/
def membersConform : List (String × JSON) → List (String × String × GoType) → Bool
  | [], _ => true
  | (k, v) :: rest, fields =>
      (match findField fields k with
        | none => true
        | some f => conforms v f.2.2) && membersConform rest fields
termination_by structural kvs => kvs
end

/-! ## `net/http` and the environment -/

/-- The parts of an `*http.Request` that `BasicProfile` sets: method, URL (the
text of the parsed `*url.URL`, as `net/url` renders it), header entries in the
order they were added, and body (`nil` is `none`). -/
structure Request where
  method : String
  url : String
  header : List (String × String)
  body : Option Bytes
  deriving DecidableEq, Repr

/-- A response body as a reader: `ioutil.ReadAll` yields `data` and `readErr`. -/
structure Body where
  data : Bytes
  readErr : Option GoError
  deriving DecidableEq, Repr

/-- The parts of an `*http.Response` that matter here. -/
structure Response where
  statusCode : Int
  body : Body
  deriving DecidableEq, Repr

/-- What the standard library does outside the program:
`parseURL u` is the error of `url.Parse(u)` (`none` when `u` parses),
`urlString u` is the text of the URL that `url.Parse(u)` returns, in which
`net/url` has escaped the path where it needs escaping,
`clientDo` is `(*http.Client).Do`, the round trip, and
`scanJSON` is the JSON text scanner: the value a text denotes, or its
syntax error. -/
structure Env where
  parseURL : String → Option GoError
  urlString : String → String
  clientDo : Request → Option Response × Option GoError
  scanJSON : Bytes → Except GoError JSON

/-- `http.NewRequest(method, url, body)` for a valid method such as "GET":
a nil request and the error when the URL does not parse, otherwise a request
for the parsed URL with an empty header. -/
def NewRequest (env : Env) (method url : String) (body : Option Bytes) :
    Option Request × Option GoError :=
  match env.parseURL url with
  | some e => (none, some e)
  | none =>
      (some { method := method, url := env.urlString url, header := [], body := body }, none)

/-- `request.Header.Add(key, value)` for a key in canonical form. -/
def headerAdd (req : Request) (key value : String) : Request :=
  { req with header := req.header ++ [(key, value)] }

/-- `request.Header.Get(key)`: the first value added under the key, "" when none. -/
def headerGet (req : Request) (key : String) : String :=
  match req.header.find? (fun h => h.1 = key) with
  | some h => h.2
  | none => ""

/-- `ioutil.ReadAll(body)` -/
def ReadAll (body : Body) : Bytes × Option GoError :=
  (body.data, body.readErr)

/-- `json.Unmarshal(data, v)` where `v` points to the value `cur` of type `t`:
a syntax error leaves the target untouched, otherwise the value is decoded
and the first type error returned. -/
def Unmarshal (env : Env) (data : Bytes) (t : GoType) (cur : GoVal) : GoVal × Option GoError :=
  match env.scanJSON data with
  | .error e => (cur, some e)
  | .ok j => decodeValue j t cur

/-! ## `BasicProfile` -/

/-- A call into `net/http` made during a run. -/
inductive Event
  | newRequest (method url : String)
  | clientDo (req : Request)
  deriving DecidableEq, Repr

/-- How a call ends: it returns `(p, err)`, or it dereferences a nil pointer
and the goroutine stops with a run-time error. -/
inductive Outcome
  | returned (p : Option GoVal) (err : Option GoError)
  | nilDereference
  deriving Repr

/-- The observable result of a call of `BasicProfile`: how it ended, the
library calls it made in order, and the receiver after the call. -/
structure Result where
  outcome : Outcome
  trace : List Event
  client : Option Client

/-- The requests handed to `(*http.Client).Do` in a trace. -/
def sent : List Event → List Request
  | [] => []
  | .clientDo req :: rest => req :: sent rest
  | .newRequest _ _ :: rest => sent rest

/-- `func (c *Client) BasicProfile(fields ...string) (p *Profile, err error)`.
The errors of `http.NewRequest` and of `client.Do` are assigned and then
overwritten without being read; `request.Header` and `resp.Body` dereference
whatever pointer came back. -/
def BasicProfile (env : Env) (c : Option Client) (fields : List String) : Result :=
  match c with
  | none => ⟨.returned none (some (errorsNew ErrInvalidClient)), [], c⟩
  | some cl =>
    if cl.accessToken = "" then
      ⟨.returned none (some (errorsNew ErrInvalidClient)), [], c⟩
    else
      let url := profileURL fields
      let t0 := [Event.newRequest "GET" url]
      match (NewRequest env "GET" url none).1 with
      | none => ⟨.nilDereference, t0, c⟩
      | some request =>
        let request := headerAdd request "Authorization" ("Bearer " ++ cl.accessToken)
        let t1 := t0 ++ [Event.clientDo request]
        match (env.clientDo request).1 with
        | none => ⟨.nilDereference, t1, c⟩
        | some resp =>
          let r := ReadAll resp.body
          match r.2 with
          | some err => ⟨.returned none (some err), t1, c⟩
          | none =>
            let d := Unmarshal env r.1 Profile (zero Profile)
            ⟨.returned (some d.1) d.2, t1, c⟩

/-! ## Sample environments -/

/-- The bytes of an ASCII text. -/
def ascii (s : String) : Bytes := s.data.map (fun ch => UInt8.ofNat ch.toNat)

/-- An ASCII control character. -/
def isCTL (ch : Char) : Bool := ch.toNat < 32 || ch.toNat == 127

/-- A hexadecimal digit. -/
def isHex (ch : Char) : Bool :=
  ch.isDigit || ('a' ≤ ch && ch ≤ 'f') || ('A' ≤ ch && ch ≤ 'F')

/-- The value of a hexadecimal digit. -/
def hexValue (ch : Char) : Nat :=
  if ch.isDigit then ch.toNat - 48
  else if 'a' ≤ ch ∧ ch ≤ 'f' then ch.toNat - 87
  else ch.toNat - 55

/-- The upper-case hexadecimal digit of a number below 16. -/
def hexDigit (n : Nat) : Char :=
  if n < 10 then Char.ofNat (48 + n) else Char.ofNat (55 + n)

/-- The escape `%XX` of a byte. -/
def percent (b : Nat) : List Char := ['%', hexDigit (b / 16), hexDigit (b % 16)]

/-- The text has a `%` that is not followed by two hexadecimal digits; `net/url`
rejects such a path with an invalid-escape error. -/
def badEscape : List Char → Bool
  | [] => false
  | '%' :: a :: b :: rest => !(isHex a && isHex b) || badEscape rest
  | '%' :: _ => true
  | _ :: rest => badEscape rest

/-- The characters `net/url` writes unescaped in a path. -/
def pathKeeps (ch : Char) : Bool :=
  ch.isAlphanum || "-_.~$&+,/:;=@".data.contains ch

/-- The characters `net/url` accepts in a path that is kept as written. -/
def pathValid (ch : Char) : Bool :=
  pathKeeps ch || "!()*[]%".data.contains ch || ch.toNat == 39

/-- The UTF-8 bytes of a character. -/
def utf8 (ch : Char) : List Nat := (String.utf8EncodeChar ch).map (fun b => b.toNat)

/-- The path decoded and escaped anew: every byte outside `pathKeeps` becomes `%XX`. -/
def reEscape : List Char → List Char
  | [] => []
  | '%' :: a :: b :: rest =>
      let n := 16 * hexValue a + hexValue b
      (if n < 128 && pathKeeps (Char.ofNat n) then [Char.ofNat n] else percent n) ++ reEscape rest
  | ch :: rest =>
      (if pathKeeps ch then [ch] else (utf8 ch).flatMap percent) ++ reEscape rest

/-- `(*url.URL).EscapedPath`: the path as written when all its characters are
valid in a path, escaped anew otherwise. -/
def escapedPath (p : List Char) : List Char :=
  if p.all pathValid then p else reEscape p

/-- The character ends the path of a raw URL. -/
def isPathEnd (ch : Char) : Bool := ch == '?' || ch == '#'

/-- The text of a raw URL `scheme://host/path?query` after parsing: the path
in its escaped form, the rest as written. -/
def urlText (u : String) : String :=
  let scheme := u.data.takeWhile (fun ch => ch != '/')
  let r1 := u.data.dropWhile (fun ch => ch != '/')
  let host := (r1.drop 2).takeWhile (fun ch => ch != '/' && !isPathEnd ch)
  let r2 := (r1.drop 2).dropWhile (fun ch => ch != '/' && !isPathEnd ch)
  let path := r2.takeWhile (fun ch => !isPathEnd ch)
  let tail := r2.dropWhile (fun ch => !isPathEnd ch)
  String.mk (scheme ++ r1.take 2 ++ host ++ escapedPath path ++ tail)

/-- The errors of `url.Parse` on a raw URL `scheme://host/path?query`: a
control character before the fragment, a malformed escape in the path or in
the fragment. -/
def urlError (u : String) : Option GoError :=
  let beforeFragment := u.data.takeWhile (fun ch => ch != '#')
  let fragment := u.data.dropWhile (fun ch => ch != '#')
  if beforeFragment.any isCTL then some (.external "invalid control character in URL")
  else if badEscape (beforeFragment.takeWhile (fun ch => ch != '?')) || badEscape fragment then
    some (.external "invalid URL escape")
  else none

/-- A scanner known on finitely many texts: the listed value for a listed
text, a syntax error for any other. -/
def scanTable (table : List (Bytes × JSON)) (data : Bytes) : Except GoError JSON :=
  match table.find? (fun e => e.1 = data) with
  | some e => .ok e.2
  | none => .error (.external "invalid character")

/-- An environment with the URL handling above in which the server answers
every request with `status` and the body `data`, read without error; the
scanner knows the texts of `table`. -/
def servingEnv (status : Int) (data : Bytes) (table : List (Bytes × JSON)) : Env where
  parseURL := urlError
  urlString := urlText
  clientDo := fun _ => (some { statusCode := status, body := { data := data, readErr := none } }, none)
  scanJSON := scanTable table

/-- An environment with the URL handling above in which every round trip
fails: no response, an error. -/
def refusingEnv : Env where
  parseURL := urlError
  urlString := urlText
  clientDo := fun _ => (none, some (.external "dial tcp: connection refused"))
  scanJSON := scanTable []

/-- The environment `env` with a server that answers every request with `resp`. -/
def answering (env : Env) (resp : Response) : Env :=
  { env with clientDo := fun _ => (some resp, none) }

/-- The key selects the field with Go name `name`. -/
def selects (fields : List (String × String × GoType)) (name key : String) : Bool :=
  match findField fields key with
  | some f => f.1 = name
  | none => false

/-- The text of the empty object. -/
def emptyObjectBody : Bytes := ascii "\x7b\x7d"

/-- The text of an object whose `id` is the number 5. -/
def numericIdBody : Bytes := ascii "\x7b\"id\":5\x7d"

/-- The value that text denotes. -/
def numericIdValue : JSON := .obj [("id", .num "5")]

/-- The text of an object with only `id` and `firstName`. -/
def annBody : Bytes := ascii "\x7b\"id\":\"abc123\",\"firstName\":\"Ann\"\x7d"

/-- The value that text denotes. -/
def annValue : JSON := .obj [("id", .str "abc123"), ("firstName", .str "Ann")]

/-- The zero `Profile` with `Id` and `FirstName` set. -/
def annProfile : GoVal :=
  .struct (setField (setField (structFields (zero Profile)) "Id" (.string "abc123"))
    "FirstName" (.string "Ann"))

/-- The value of a body with a connection count, its capped flag, a
`pictureUrls` object with one URL, and a `positions` object: a total of 2 and
two position records. -/
def positionsValue : JSON :=
  .obj [("numConnections", .num "500"), ("numConnectionsCapped", .bool true),
    ("pictureUrls", .obj [("_total", .num "1"), ("values", .arr [.str "https://example.com/p.jpg"])]),
    ("positions", .obj
    [("_total", .num "2"),
     ("values", .arr
       [.obj [("id", .num "7"), ("title", .str "Engineer"), ("isCurrent", .bool true),
              ("company", .obj [("name", .str "Acme")])],
        .obj [("id", .num "8"), ("startDate", .obj [("year", .num "2012"), ("month", .num "5")])]])])]

/-- The text of that body. -/
def positionsBody : Bytes :=
  ascii ("\x7b\"numConnections\":500,\"numConnectionsCapped\":true," ++
    "\"pictureUrls\":\x7b\"_total\":1,\"values\":[\"https://example.com/p.jpg\"]\x7d," ++
    "\"positions\":\x7b\"_total\":2,\"values\":[" ++
    "\x7b\"id\":7,\"title\":\"Engineer\",\"isCurrent\":true," ++
    "\"company\":\x7b\"name\":\"Acme\"\x7d\x7d," ++
    "\x7b\"id\":8,\"startDate\":\x7b\"year\":2012,\"month\":5\x7d\x7d]\x7d\x7d")

/-- The first position of that body: the zero `Position` with `Id`, `IsCurrent`,
`Title` and the company's `Name` set. -/
def firstPosition : GoVal :=
  .struct (setField (setField (setField (setField (structFields (zero Position))
    "Id" (.int 7)) "IsCurrent" (.bool true)) "Title" (.string "Engineer"))
    "Company" (.struct (setField (structFields (zero Company)) "Name" (.string "Acme"))))

/-- The second position of that body: the zero `Position` with `Id` and the
start date set. -/
def secondPosition : GoVal :=
  .struct (setField (setField (structFields (zero Position)) "Id" (.int 8))
    "StartDate" (.struct [("Month", .int 5), ("Year", .int 2012)]))

/-- The zero `Profile` with the connection count 500, the capped flag, one
picture URL, and `Positions` holding the total 2 and the two positions. -/
def positionsProfile : GoVal :=
  .struct (setField (setField (setField (setField (structFields (zero Profile))
    "NumConnections" (.int 500)) "NumConnectionsCapped" (.bool true))
    "PictureURLs" (.struct [("Total", .int 1),
      ("URLs", .slice [.string "https://example.com/p.jpg"] [])]))
    "Positions"
    (.struct [("Total", .int 2), ("Values", .slice [firstPosition, secondPosition] [])]))

/-! ## What a JSON value stands for -/

mutual
/-- The Go value that a JSON value of the shape of the type stands for: the
boolean, the string, the integer of the literal, the slice of what the elements
stand for, the struct in which each field named by a member is what the
member's value stands for and every other field is zero; `null` stands for
the zero value. -/
def denote : JSON → GoType → GoVal
  | .bool b, .bool => .bool b
  | .str s, .string => .string s
  | .num lit, .int => .int ((parseInt64 lit).getD 0)
  | .arr xs, .slice et => .slice (denoteElems xs et) []
  | .obj kvs, .struct _ fields => .struct (denoteMembers kvs fields (zeroFields fields))
  | _, t => zero t
termination_by structural j => j
/-- What the elements of an array stand for. -/
def denoteElems : List JSON → GoType → List GoVal
  | [], _ => []
  | x :: xs, et => denote x et :: denoteElems xs et
termination_by structural xs => xs
/-- The fields `acc` with each field named by a member set to what the
member's value stands for. -/
def denoteMembers : List (String × JSON) → List (String × String × GoType) →
    List (String × GoVal) → List (String × GoVal)
  | [], _, acc => acc
  | (k, v) :: rest, fields, acc =>
      match findField fields k with
      | none => denoteMembers rest fields acc
      | some f => denoteMembers rest fields (setField acc f.1 (denote v f.2.2))
termination_by structural kvs => kvs
end

mutual
/-- No object in the value names a field of its struct twice. -/
def distinctKeys : JSON → GoType → Bool
  | .arr xs, .slice et => elemsDistinct xs et
  | .obj kvs, .struct _ fields => membersDistinct kvs fields
  | _, _ => true
termination_by structural j => j
/-- No object in an element names a field twice. -/
def elemsDistinct : List JSON → GoType → Bool
  | [], _ => true
  | x :: xs, et => distinctKeys x et && elemsDistinct xs et
termination_by structural xs => xs
/-- No two members select the same field, and no object in a member's value
names a field twice. -/
def membersDistinct : List (String × JSON) → List (String × String × GoType) → Bool
  | [], _ => true
  | (k, v) :: rest, fields =>
      (match findField fields k with
        | none => true
        | some f => distinctKeys v f.2.2 && rest.all (fun kv => !(selects fields f.1 kv.1)))
      && membersDistinct rest fields
termination_by structural kvs => kvs
end

mutual
/-- The field names of every struct in the type are distinct, as the Go
compiler requires. -/
def wellFormed : GoType → Bool
  | .slice et => wellFormed et
  | .struct _ fields => decide ((fields.map (fun f => f.1)).Nodup) && fieldsWellFormed fields
  | _ => true
/-- The types of the fields are well formed. -/
def fieldsWellFormed : List (String × String × GoType) → Bool
  | [] => true
  | (_, _, t) :: rest => wellFormed t && fieldsWellFormed rest
end

/-! ## The field selector is a comma-joined, parenthesised list -/

theorem intercalate_go_append (p a sep : String) (l : List String) :
    String.intercalate.go (p ++ a) sep l = p ++ String.intercalate.go a sep l := by
  induction l generalizing a with
  | nil => simp [String.intercalate.go]
  | cons x xs ih =>
    simp only [String.intercalate.go]
    rw [String.append_assoc, String.append_assoc, ← String.append_assoc a sep x]
    exact ih (a ++ sep ++ x)

theorem fieldLoop_tail (n : Nat) (rest : List String) :
    ∀ (i : Nat) (acc : String), 0 < i → i + rest.length = n → rest ≠ [] →
      fieldLoop n i rest acc = String.intercalate.go acc "," rest ++ ")" := by
  induction rest with
  | nil => intro i acc _ _ h; exact absurd rfl h
  | cons f tl ih =>
    intro i acc hi hn _
    cases tl with
    | nil =>
      have h1 : i = n - 1 := by simp at hn; omega
      have h0 : i ≠ 0 := by omega
      simp [fieldLoop, fieldStep, h0, hi, h1.symm, String.intercalate.go]
    | cons g tl2 =>
      have h1 : i ≠ n - 1 := by simp at hn; omega
      have h0 : i ≠ 0 := by omega
      have hstep : fieldStep n acc i f = acc ++ "," ++ f := by
        simp [fieldStep, h0, hi, h1]
      rw [fieldLoop, hstep, ih (i + 1) (acc ++ "," ++ f) (by omega)
        (by simp at hn ⊢; omega) (by simp)]
      simp [String.intercalate.go]

theorem fieldLoop_all (f : String) (rest : List String) :
    fieldLoop (f :: rest).length 0 (f :: rest) "" = ":(" ++ ",".intercalate (f :: rest) ++ ")" := by
  cases rest with
  | nil => simp [fieldLoop, fieldStep, String.intercalate, String.intercalate.go]
  | cons g tl =>
    have hstep : fieldStep (f :: g :: tl).length "" 0 f = ":(" ++ f := by
      simp [fieldStep]
    rw [fieldLoop, hstep, fieldLoop_tail _ (g :: tl) 1 (":(" ++ f) (by omega) (by simp; omega)
      (by simp)]
    rw [intercalate_go_append]
    simp [String.intercalate]

theorem resolveFields_of_ne_all (fields : List String) (h : fields ≠ ["all"]) :
    resolveFields fields = fields := by
  unfold resolveFields
  split
  · rename_i hc
    obtain ⟨hl, hh⟩ := hc
    match fields, hl, hh with
    | [x], _, hh =>
      simp at hh
      exact absurd (by rw [hh]) h
  · rfl

theorem fieldSelector_of_fields (fields : List String) (hne : fields ≠ [])
    (hall : fields ≠ ["all"]) :
    fieldSelector fields = ":(" ++ ",".intercalate fields ++ ")" := by
  unfold fieldSelector
  simp only [resolveFields_of_ne_all fields hall]
  match fields, hne with
  | f :: rest, _ => exact fieldLoop_all f rest

/-! ## The runs of `BasicProfile` -/

theorem run_of_invalid_client (env : Env) (c : Option Client) (fields : List String)
    (h : c = none ∨ c = some { accessToken := "" }) :
    BasicProfile env c fields =
      ⟨.returned none (some (.errorString "Invalid Client")), [], c⟩ := by
  rcases h with h | h <;> subst h <;> rfl

theorem run_of_rejected_url (env : Env) (c : Client) (fields : List String)
    (htok : c.accessToken ≠ "") (e : GoError) (hurl : env.parseURL (profileURL fields) = some e) :
    BasicProfile env (some c) fields =
      ⟨.nilDereference, [.newRequest "GET" (profileURL fields)], some c⟩ := by
  simp [BasicProfile, htok, NewRequest, hurl]

/-- The request `BasicProfile` builds for a client and a field list. -/
theorem run_of_accepted_url (env : Env) (c : Client) (fields : List String)
    (htok : c.accessToken ≠ "") (hurl : env.parseURL (profileURL fields) = none) :
    (BasicProfile env (some c) fields).trace =
      [.newRequest "GET" (profileURL fields),
       .clientDo ⟨"GET", env.urlString (profileURL fields), [("Authorization", "Bearer " ++ c.accessToken)], none⟩]
    ∧ (BasicProfile env (some c) fields).client = some c := by
  simp only [BasicProfile, htok, NewRequest, hurl, headerAdd, if_false]
  cases (env.clientDo ⟨"GET", env.urlString (profileURL fields),
      [] ++ [("Authorization", "Bearer " ++ c.accessToken)], none⟩).1 with
  | none => simp
  | some resp =>
    simp only []
    cases (ReadAll resp.body).2 <;> simp

theorem trace_head_is_newRequest (env : Env) (c : Client) (fields : List String)
    (htok : c.accessToken ≠ "") :
    (BasicProfile env (some c) fields).trace.head? =
      some (.newRequest "GET" (profileURL fields)) := by
  cases hurl : env.parseURL (profileURL fields) with
  | none => rw [(run_of_accepted_url env c fields htok hurl).1]; rfl
  | some e => rw [run_of_rejected_url env c fields htok e hurl]; rfl

theorem sent_requests_url (env : Env) (c : Client) (fields : List String)
    (htok : c.accessToken ≠ "") :
    ∀ req ∈ sent (BasicProfile env (some c) fields).trace,
      req.url = env.urlString (profileURL fields) := by
  cases hurl : env.parseURL (profileURL fields) with
  | none =>
    rw [(run_of_accepted_url env c fields htok hurl).1]
    intro req hreq
    simp [sent] at hreq
    rw [hreq]
  | some e =>
    rw [run_of_rejected_url env c fields htok e hurl]
    intro req hreq
    simp [sent] at hreq

theorem one_request_sent (env : Env) (c : Client) (fields : List String)
    (htok : c.accessToken ≠ "") (hurl : env.parseURL (profileURL fields) = none) :
    sent (BasicProfile env (some c) fields).trace =
      [⟨"GET", env.urlString (profileURL fields),
        [("Authorization", "Bearer " ++ c.accessToken)], none⟩] := by
  rw [(run_of_accepted_url env c fields htok hurl).1]
  rfl

/-! ## Construction and the invalid client -/

/-- C3: `NewClient` returns the error "Invalid Client" and a nil client exactly
when the token is the empty string; for a non-empty token it returns no error
and a client that stores the token verbatim. -/
theorem NewClient_spec (token : String) :
    (NewClient token = (none, some (.errorString "Invalid Client")) ↔ token = "") ∧
    ((NewClient token).2 ≠ none ↔ token = "") ∧
    ((NewClient token).1 = none ↔ token = "") ∧
    (token ≠ "" → NewClient token = (some { accessToken := token }, none)) := by
  unfold NewClient
  by_cases h : token = ""
  · simp [h, errorsNew, ErrInvalidClient]
  · simp [h]

/-- C4: on a nil client (what `NewClient ""` returns) or a client with an
empty token, `BasicProfile` returns a nil profile and the "Invalid Client"
error for every field list, makes no call into `net/http` and so sends no
request. -/
theorem BasicProfile_invalid_client (env : Env) (c : Option Client) (fields : List String)
    (h : c = (NewClient "").1 ∨ c = some { accessToken := "" }) :
    (BasicProfile env c fields).outcome = .returned none (some (.errorString "Invalid Client")) ∧
    (BasicProfile env c fields).trace = [] ∧
    sent (BasicProfile env c fields).trace = [] := by
  have h2 : c = none ∨ c = some { accessToken := "" } := h
  rw [run_of_invalid_client env c fields h2]
  exact ⟨rfl, rfl, rfl⟩

theorem BasicProfile_invalid_client_witness :
    ((NewClient "").1 = (NewClient "").1 ∨ (NewClient "").1 = some { accessToken := "" }) ∧
    (BasicProfile refusingEnv (NewClient "").1 ["id"]).outcome =
      .returned none (some (.errorString "Invalid Client")) ∧
    (BasicProfile refusingEnv (NewClient "").1 ["id"]).trace = [] ∧
    sent (BasicProfile refusingEnv (NewClient "").1 ["id"]).trace = [] :=
  ⟨Or.inl rfl, BasicProfile_invalid_client refusingEnv (NewClient "").1 ["id"] (Or.inl rfl)⟩

/-! ## The URL requested -/

/-- C1 (as stated, refuted): the field list `["%"]` is non-empty and is not
`["all"]`, yet with it nothing is requested: the URL has a malformed escape,
`http.NewRequest` returns no request and the call stops at `request.Header`.
With `["first name"]` a request is sent, and its URL is not the string built:
`net/url` has escaped the parentheses and the blank. -/
theorem BasicProfile_url_not_requested :
    (Client.mk "token").accessToken ≠ "" ∧ ["%"] ≠ ([] : List String) ∧ ["%"] ≠ ["all"] ∧
    sent (BasicProfile (servingEnv 200 [] []) (some (Client.mk "token")) ["%"]).trace = [] ∧
    (BasicProfile (servingEnv 200 [] []) (some (Client.mk "token")) ["%"]).outcome =
      .nilDereference ∧
    profileURL ["first name"] =
      "https://api.linkedin.com/v1/people/~:(first name)?format=json" ∧
    (sent (BasicProfile (servingEnv 200 [] []) (some (Client.mk "token"))
      ["first name"]).trace).map (fun req => req.url) =
      ["https://api.linkedin.com/v1/people/~:%28first%20name%29?format=json"] ∧
    ¬ (sent (BasicProfile (servingEnv 200 [] []) (some (Client.mk "token"))
      ["first name"]).trace).map (fun req => req.url) = [profileURL ["first name"]] := by
  have h : (sent (BasicProfile (servingEnv 200 [] []) (some (Client.mk "token"))
      ["first name"]).trace).map (fun req => req.url) =
      ["https://api.linkedin.com/v1/people/~:%28first%20name%29?format=json"] := rfl
  have hu : profileURL ["first name"] =
      "https://api.linkedin.com/v1/people/~:(first name)?format=json" := rfl
  refine ⟨by decide, by decide, by decide, rfl, rfl, hu, h, ?_⟩
  rw [h, hu]
  decide

/-- C1 (amended): for a client with a non-empty token and a non-empty field
list other than `["all"]`, the string `BasicProfile` builds and hands to
`http.NewRequest` is the base URL, then `:(`, the fields joined with `,` in the
given order, `)`, then `?format=json`; when `http.NewRequest` accepts it,
exactly one request is sent, a GET for the URL parsed from that string, which
is the string itself when `net/url` leaves it as written;
`["first-name", "last-name"]` gives `:(first-name,last-name)` directly after
`~`, and `["all", "id"]` is joined literally. -/
theorem BasicProfile_url_of_fields (env : Env) (c : Client) (fields : List String)
    (htok : c.accessToken ≠ "") (hne : fields ≠ []) (hall : fields ≠ ["all"]) :
    profileURL fields =
      "https://api.linkedin.com/v1/people/~" ++ ":(" ++ ",".intercalate fields ++ ")"
        ++ "?format=json" ∧
    (BasicProfile env (some c) fields).trace.head? =
      some (.newRequest "GET" (profileURL fields)) ∧
    (env.parseURL (profileURL fields) = none →
      ∃ req, sent (BasicProfile env (some c) fields).trace = [req] ∧ req.method = "GET" ∧
        req.url = env.urlString (profileURL fields)) ∧
    (env.parseURL (profileURL fields) = none →
      env.urlString (profileURL fields) = profileURL fields →
      ∃ req, sent (BasicProfile env (some c) fields).trace = [req] ∧ req.method = "GET" ∧
        req.url = "https://api.linkedin.com/v1/people/~" ++ ":(" ++ ",".intercalate fields
          ++ ")" ++ "?format=json") ∧
    profileURL ["first-name", "last-name"] =
      "https://api.linkedin.com/v1/people/~:(first-name,last-name)?format=json" ∧
    profileURL ["all", "id"] = "https://api.linkedin.com/v1/people/~:(all,id)?format=json" := by
  have hX : profileURL fields =
      "https://api.linkedin.com/v1/people/~" ++ ":(" ++ ",".intercalate fields ++ ")"
        ++ "?format=json" := by
    unfold profileURL
    rw [fieldSelector_of_fields fields hne hall]
    simp only [String.append_assoc]
  refine ⟨hX, trace_head_is_newRequest env c fields htok, ?_, ?_, rfl, rfl⟩
  · intro hurl
    exact ⟨_, one_request_sent env c fields htok hurl, rfl, rfl⟩
  · intro hurl hsame
    refine ⟨_, one_request_sent env c fields htok hurl, rfl, ?_⟩
    show env.urlString (profileURL fields) = _
    rw [hsame, hX]

theorem BasicProfile_url_of_fields_witness :
    (Client.mk "token").accessToken ≠ "" ∧ ["first-name", "last-name"] ≠ ([] : List String) ∧
    ["first-name", "last-name"] ≠ ["all"] ∧
    (servingEnv 200 [] []).parseURL (profileURL ["first-name", "last-name"]) = none ∧
    (servingEnv 200 [] []).urlString (profileURL ["first-name", "last-name"]) =
      profileURL ["first-name", "last-name"] ∧
    ∃ req, sent (BasicProfile (servingEnv 200 [] []) (some (Client.mk "token"))
        ["first-name", "last-name"]).trace = [req] ∧ req.method = "GET" ∧
      req.url = "https://api.linkedin.com/v1/people/~" ++ ":(" ++
        ",".intercalate ["first-name", "last-name"] ++ ")" ++ "?format=json" :=
  ⟨by decide, by decide, by decide, rfl, rfl,
    (BasicProfile_url_of_fields (servingEnv 200 [] []) (Client.mk "token")
      ["first-name", "last-name"] (by decide) (by decide) (by decide)).2.2.2.1 rfl rfl⟩

/-- C5: for a client with a non-empty token and no fields, the selector is
the empty string and the URL built and handed to `http.NewRequest` is exactly
`https://api.linkedin.com/v1/people/~?format=json`, which has no parenthesis;
as `http.NewRequest` accepts that URL, exactly one request is sent, a GET for
the URL parsed from it, which is that URL itself as `net/url` leaves it as
written. -/
theorem BasicProfile_url_no_fields (env : Env) (c : Client) (htok : c.accessToken ≠ "") :
    fieldSelector [] = "" ∧
    profileURL [] = "https://api.linkedin.com/v1/people/~?format=json" ∧
    (BasicProfile env (some c) []).trace.head? =
      some (.newRequest "GET" "https://api.linkedin.com/v1/people/~?format=json") ∧
    (env.parseURL "https://api.linkedin.com/v1/people/~?format=json" = none →
      ∃ req, sent (BasicProfile env (some c) []).trace = [req] ∧ req.method = "GET" ∧
        req.url = env.urlString "https://api.linkedin.com/v1/people/~?format=json") ∧
    (env.parseURL "https://api.linkedin.com/v1/people/~?format=json" = none →
      env.urlString "https://api.linkedin.com/v1/people/~?format=json" =
        "https://api.linkedin.com/v1/people/~?format=json" →
      ∃ req, sent (BasicProfile env (some c) []).trace = [req] ∧ req.method = "GET" ∧
        req.url = "https://api.linkedin.com/v1/people/~?format=json") ∧
    '(' ∉ (profileURL []).data ∧ ')' ∉ (profileURL []).data := by
  have hX : profileURL [] = "https://api.linkedin.com/v1/people/~?format=json" := rfl
  refine ⟨rfl, rfl, trace_head_is_newRequest env c [] htok, ?_, ?_, ?_, ?_⟩
  · intro hurl
    rw [← hX] at hurl ⊢
    exact ⟨_, one_request_sent env c [] htok hurl, rfl, rfl⟩
  · intro hurl hsame
    rw [← hX] at hurl hsame
    refine ⟨_, one_request_sent env c [] htok hurl, rfl, ?_⟩
    show env.urlString (profileURL []) = _
    rw [hsame, hX]
  · have h : (profileURL []).data = "https://api.linkedin.com/v1/people/~?format=json".data := rfl
    rw [h]; decide
  · have h : (profileURL []).data = "https://api.linkedin.com/v1/people/~?format=json".data := rfl
    rw [h]; decide

theorem BasicProfile_url_no_fields_witness :
    (Client.mk "token").accessToken ≠ "" ∧
    (servingEnv 200 [] []).parseURL "https://api.linkedin.com/v1/people/~?format=json" = none ∧
    (servingEnv 200 [] []).urlString "https://api.linkedin.com/v1/people/~?format=json" =
      "https://api.linkedin.com/v1/people/~?format=json" ∧
    ∃ req, sent (BasicProfile (servingEnv 200 [] []) (some (Client.mk "token")) []).trace = [req] ∧
      req.method = "GET" ∧ req.url = "https://api.linkedin.com/v1/people/~?format=json" :=
  ⟨by decide, rfl, rfl,
    (BasicProfile_url_no_fields (servingEnv 200 [] []) (Client.mk "token")
      (by decide)).2.2.2.2.1 rfl rfl⟩

/-- C2 (as stated, refuted): the list substituted for the single field "all"
has 23 names, not 22. -/
theorem all_fields_count_not_22 :
    (resolveFields ["all"]).length = 23 ∧ ¬ (resolveFields ["all"]).length = 22 := by
  have h : (resolveFields ["all"]).length = 23 := rfl
  exact ⟨h, by rw [h]; decide⟩

set_option maxRecDepth 20000 in
/-- C2 (amended): for a client with a non-empty token and the single field
"all", the selector is `:(`, the 23 names of `allFields` joined with `,` in
their fixed order, `)`, and the URL built and handed to `http.NewRequest`
carries it directly after `~`. -/
theorem BasicProfile_url_all (env : Env) (c : Client) (htok : c.accessToken ≠ "") :
    fieldSelector ["all"] = ":(" ++ ",".intercalate allFields ++ ")" ∧
    allFields.length = 23 ∧
    fieldSelector ["all"] =
      ":(first-name,last-name,maiden-name,formatted-name,phonetic-first-name," ++
      "phonetic-last-name,formatted-phonetic-name,headline,current-share,num-connections," ++
      "num-connections-capped,summary,specialties,picture-url,site-standard-profile-request," ++
      "api-standard-profile-request,public-profile-url,email-address,industry," ++
      "picture-urls::(original),location,positions,id)" ∧
    profileURL ["all"] =
      "https://api.linkedin.com/v1/people/~" ++ ":(" ++ ",".intercalate allFields ++ ")"
        ++ "?format=json" ∧
    (BasicProfile env (some c) ["all"]).trace.head? =
      some (.newRequest "GET" (profileURL ["all"])) ∧
    (∀ req ∈ sent (BasicProfile env (some c) ["all"]).trace,
      req.url = env.urlString (profileURL ["all"])) ∧
    (env.parseURL (profileURL ["all"]) = none →
      ∃ req, sent (BasicProfile env (some c) ["all"]).trace = [req] ∧ req.method = "GET" ∧
        req.url = env.urlString (profileURL ["all"])) :=
  ⟨rfl, rfl, rfl, rfl, trace_head_is_newRequest env c ["all"] htok,
    sent_requests_url env c ["all"] htok,
    fun hurl => ⟨_, one_request_sent env c ["all"] htok hurl, rfl, rfl⟩⟩

theorem BasicProfile_url_all_witness :
    (Client.mk "token").accessToken ≠ "" ∧
    fieldSelector ["all"] = ":(" ++ ",".intercalate allFields ++ ")" ∧ allFields.length = 23 :=
  ⟨by decide, (BasicProfile_url_all refusingEnv (Client.mk "token") (by decide)).1,
    (BasicProfile_url_all refusingEnv (Client.mk "token") (by decide)).2.1⟩

/-! ## The round trip -/

/-- C6 (the code at the failing input): when the round trip fails, so that
`client.Do` returns no response and an error, `BasicProfile` does not return
that error: it goes on to `resp.Body` and dereferences the nil response.  This
is so for every client with a non-empty token and every field list whose
request is built, and in particular for the token "token" with no fields. -/
theorem BasicProfile_failed_round_trip :
    (∀ (env : Env) (c : Client) (fields : List String), c.accessToken ≠ "" →
      env.parseURL (profileURL fields) = none →
      (env.clientDo ⟨"GET", env.urlString (profileURL fields),
        [("Authorization", "Bearer " ++ c.accessToken)], none⟩).1 = none →
      (BasicProfile env (some c) fields).outcome = .nilDereference) ∧
    (∀ req, refusingEnv.clientDo req =
      (none, some (.external "dial tcp: connection refused"))) ∧
    (BasicProfile refusingEnv (some { accessToken := "token" }) []).outcome = .nilDereference ∧
    (BasicProfile refusingEnv (some { accessToken := "token" }) ["id"]).outcome =
      .nilDereference := by
  refine ⟨?_, fun _ => rfl, rfl, rfl⟩
  intro env c fields htok hurl hresp
  simp [BasicProfile, htok, NewRequest, hurl, headerAdd, hresp]

/-- C8 (as stated, refuted): with the field `%` the URL has a malformed escape,
`http.NewRequest` returns no request, and the call sends nothing: it stops at
`request.Header` on the nil request. -/
theorem BasicProfile_sends_nothing_on_bad_url :
    (Client.mk "token").accessToken ≠ "" ∧
    sent (BasicProfile (servingEnv 200 [] []) (some (Client.mk "token")) ["%"]).trace = [] ∧
    ¬ (sent (BasicProfile (servingEnv 200 [] []) (some (Client.mk "token")) ["%"]).trace).length
      = 1 ∧
    (BasicProfile (servingEnv 200 [] []) (some (Client.mk "token")) ["%"]).outcome =
      .nilDereference := by
  have h : sent (BasicProfile (servingEnv 200 [] []) (some (Client.mk "token")) ["%"]).trace
      = [] := rfl
  refine ⟨by decide, h, ?_, rfl⟩
  rw [h]; decide

/-- C8 (amended): for a client with a non-empty token `t` and a field list
whose URL `http.NewRequest` accepts, a call of `BasicProfile` hands exactly one
request to `client.Do`; its method is GET, its body is nil, its only header is
`Authorization: Bearer t`, and the client is as before. -/
theorem BasicProfile_one_request (env : Env) (c : Client) (fields : List String)
    (htok : c.accessToken ≠ "") (hurl : env.parseURL (profileURL fields) = none) :
    ∃ req, sent (BasicProfile env (some c) fields).trace = [req] ∧
      req.method = "GET" ∧ req.body = none ∧
      req.header = [("Authorization", "Bearer " ++ c.accessToken)] ∧
      headerGet req "Authorization" = "Bearer " ++ c.accessToken ∧
      (BasicProfile env (some c) fields).client = some c := by
  obtain ⟨htrace, hclient⟩ := run_of_accepted_url env c fields htok hurl
  refine ⟨⟨"GET", env.urlString (profileURL fields), [("Authorization", "Bearer " ++ c.accessToken)], none⟩,
    ?_, rfl, rfl, rfl, ?_, hclient⟩
  · rw [htrace]; rfl
  · simp [headerGet]

theorem BasicProfile_one_request_witness :
    (Client.mk "token").accessToken ≠ "" ∧
    (servingEnv 200 [] []).parseURL (profileURL ["id"]) = none ∧
    ∃ req, sent (BasicProfile (servingEnv 200 [] []) (some (Client.mk "token")) ["id"]).trace
        = [req] ∧
      req.method = "GET" ∧ req.body = none ∧
      req.header = [("Authorization", "Bearer " ++ (Client.mk "token").accessToken)] ∧
      headerGet req "Authorization" = "Bearer " ++ (Client.mk "token").accessToken ∧
      (BasicProfile (servingEnv 200 [] []) (some (Client.mk "token")) ["id"]).client =
        some (Client.mk "token") :=
  ⟨by decide, rfl,
    BasicProfile_one_request (servingEnv 200 [] []) (Client.mk "token") ["id"] (by decide) rfl⟩

/-- C10: `BasicProfile` does not look at the status code: for every client and
field list, two responses with the same body give the same returned profile
and the same error, whatever their status codes. -/
theorem BasicProfile_ignores_status (env : Env) (c : Option Client) (fields : List String)
    (r1 r2 : Response) (hbody : r1.body = r2.body) :
    (BasicProfile (answering env r1) c fields).outcome =
      (BasicProfile (answering env r2) c fields).outcome := by
  cases c with
  | none => rfl
  | some cl =>
    by_cases htok : cl.accessToken = ""
    · simp [BasicProfile, htok]
    · cases hurl : env.parseURL (profileURL fields) with
      | some e => simp [BasicProfile, htok, NewRequest, answering, hurl]
      | none =>
        simp only [BasicProfile, htok, NewRequest, answering, hurl, if_false, hbody, Unmarshal]

theorem BasicProfile_ignores_status_witness :
    (Response.mk 200 ⟨emptyObjectBody, none⟩).body =
      (Response.mk 500 ⟨emptyObjectBody, none⟩).body ∧
    (BasicProfile (answering (servingEnv 200 [] [(emptyObjectBody, .obj [])])
        (Response.mk 200 ⟨emptyObjectBody, none⟩)) (some (Client.mk "token")) ["id"]).outcome =
      (BasicProfile (answering (servingEnv 200 [] [(emptyObjectBody, .obj [])])
        (Response.mk 500 ⟨emptyObjectBody, none⟩)) (some (Client.mk "token")) ["id"]).outcome ∧
    (BasicProfile (answering (servingEnv 200 [] [(emptyObjectBody, .obj [])])
        (Response.mk 500 ⟨emptyObjectBody, none⟩)) (some (Client.mk "token")) ["id"]).outcome =
      .returned (some (zero Profile)) none :=
  ⟨rfl,
    BasicProfile_ignores_status (servingEnv 200 [] [(emptyObjectBody, .obj [])])
      (some (Client.mk "token")) ["id"]
      (Response.mk 200 ⟨emptyObjectBody, none⟩) (Response.mk 500 ⟨emptyObjectBody, none⟩) rfl,
    rfl⟩

/-! ## Decode errors -/

/-- C7 (as stated, refuted): a malformed body gives the syntax error together
with a non-nil profile, the zero `Profile`. -/
theorem BasicProfile_malformed_body_profile_not_nil :
    (servingEnv 200 (ascii "\x7b") []).scanJSON (ascii "\x7b") =
      .error (.external "invalid character") ∧
    (BasicProfile (servingEnv 200 (ascii "\x7b") []) (some { accessToken := "token" }) []).outcome =
      .returned (some (zero Profile)) (some (.external "invalid character")) ∧
    ¬ (BasicProfile (servingEnv 200 (ascii "\x7b") []) (some { accessToken := "token" }) []).outcome =
      .returned none (some (.external "invalid character")) := by
  have h : (BasicProfile (servingEnv 200 (ascii "\x7b") []) (some { accessToken := "token" })
      []).outcome = .returned (some (zero Profile)) (some (.external "invalid character")) := rfl
  refine ⟨rfl, h, ?_⟩
  rw [h]
  intro hc
  cases hc

/-- C7 (amended): for a client with a non-empty token, when the response body
is read without error and fails JSON decoding, `BasicProfile` returns the
decode error as it is together with a non-nil profile: the zero `Profile` for
a malformed body, the `Profile` as far as it was decoded after a type error. -/
theorem BasicProfile_decode_error (env : Env) (c : Client) (fields : List String)
    (resp : Response) (htok : c.accessToken ≠ "")
    (hurl : env.parseURL (profileURL fields) = none)
    (hresp : (env.clientDo ⟨"GET", env.urlString (profileURL fields),
      [("Authorization", "Bearer " ++ c.accessToken)], none⟩).1 = some resp)
    (hread : resp.body.readErr = none) :
    (∀ e, env.scanJSON resp.body.data = .error e →
      (BasicProfile env (some c) fields).outcome = .returned (some (zero Profile)) (some e)) ∧
    (∀ e, (Unmarshal env resp.body.data Profile (zero Profile)).2 = some e →
      (BasicProfile env (some c) fields).outcome =
        .returned (some (Unmarshal env resp.body.data Profile (zero Profile)).1) (some e)) := by
  have hrun : (BasicProfile env (some c) fields).outcome =
      .returned (some (Unmarshal env resp.body.data Profile (zero Profile)).1)
        (Unmarshal env resp.body.data Profile (zero Profile)).2 := by
    simp [BasicProfile, htok, NewRequest, hurl, headerAdd, hresp, ReadAll, hread]
  constructor
  · intro e he
    rw [hrun]
    simp [Unmarshal, he]
  · intro e he
    rw [hrun, he]

theorem BasicProfile_decode_error_witness :
    (Client.mk "token").accessToken ≠ "" ∧
    (BasicProfile (servingEnv 200 (ascii "[") []) (some (Client.mk "token")) ["id"]).outcome =
      .returned (some (zero Profile)) (some (.external "invalid character")) :=
  ⟨by decide,
    (BasicProfile_decode_error (servingEnv 200 (ascii "[") []) (Client.mk "token") ["id"]
      ⟨200, ⟨ascii "[", none⟩⟩ (by decide) rfl rfl rfl).1 (.external "invalid character") rfl⟩

/-! ## Decoding a JSON object into a struct -/

theorem orElse_eq_none (a b : Option GoError) : (a <|> b) = none ↔ a = none ∧ b = none := by
  cases a <;> cases b <;> simp

mutual
theorem decodeValue_ok_iff (j : JSON) (t : GoType) (cur : GoVal) :
    (decodeValue j t cur).2 = none ↔ conforms j t = true := by
  cases j with
  | null => cases t <;> simp [decodeValue, conforms]
  | bool b => cases t <;> simp [decodeValue, conforms]
  | str s => cases t <;> simp [decodeValue, conforms]
  | num lit =>
    cases t <;> simp [decodeValue, conforms]
    cases parseInt64 lit <;> simp
  | arr xs =>
    cases xs with
    | nil => cases t <;> simp [decodeValue, conforms, elemsConform]
    | cons x tl =>
      cases t with
      | slice et =>
        simp only [decodeValue, conforms]
        exact decodeElems_ok_iff (x :: tl) et (backing cur)
      | _ => simp [decodeValue, conforms]
  | obj kvs =>
    cases t with
    | struct name fields =>
      simp only [decodeValue, conforms]
      exact decodeMembers_ok_iff kvs fields (structFields cur)
    | _ => simp [decodeValue, conforms]
termination_by sizeOf j
theorem decodeElems_ok_iff (xs : List JSON) (et : GoType) (back : List GoVal) :
    (decodeElems xs et back).2.2 = none ↔ elemsConform xs et = true := by
  cases xs with
  | nil => simp [decodeElems, elemsConform]
  | cons x tl =>
    simp only [decodeElems, elemsConform, orElse_eq_none, Bool.and_eq_true]
    rw [decodeValue_ok_iff x et _, decodeElems_ok_iff tl et _]
termination_by sizeOf xs
theorem decodeMembers_ok_iff (kvs : List (String × JSON)) (fields : List (String × String × GoType))
    (cur : List (String × GoVal)) :
    (decodeMembers kvs fields cur).2 = none ↔ membersConform kvs fields = true := by
  cases kvs with
  | nil => simp [decodeMembers, membersConform]
  | cons kv tl =>
    obtain ⟨k, v⟩ := kv
    simp only [decodeMembers, membersConform, Bool.and_eq_true]
    cases hf : findField fields k with
    | none =>
      simp only [true_and]
      exact decodeMembers_ok_iff tl fields cur
    | some f =>
      simp only [orElse_eq_none]
      rw [decodeValue_ok_iff v f.2.2 _, decodeMembers_ok_iff tl fields _]
termination_by sizeOf kvs
end


theorem membersConform_iff (kvs : List (String × JSON)) (fields : List (String × String × GoType)) :
    membersConform kvs fields = true ↔
      ∀ kv ∈ kvs, ∀ f, findField fields kv.1 = some f → conforms kv.2 f.2.2 = true := by
  induction kvs with
  | nil => simp [membersConform]
  | cons kv tl ih =>
    obtain ⟨k, v⟩ := kv
    simp only [membersConform, Bool.and_eq_true, ih, List.mem_cons, forall_eq_or_imp]
    cases hf : findField fields k <;> simp

theorem findField_mem (fields : List (String × String × GoType)) (key : String)
    (f : String × String × GoType) (h : findField fields key = some f) : f ∈ fields := by
  unfold findField at h
  split at h
  · rename_i g hg
    cases h
    exact List.mem_of_find?_eq_some hg
  · exact List.mem_of_find?_eq_some h

theorem field_eq_of_name (fields : List (String × String × GoType))
    (hnd : (fields.map (fun f => f.1)).Nodup) (f g : String × String × GoType)
    (hf : f ∈ fields) (hg : g ∈ fields) (h : g.1 = f.1) : g = f :=
  List.inj_on_of_nodup_map hnd hg hf h

theorem setField_names (fs : List (String × GoVal)) (name : String) (w : GoVal) :
    (setField fs name w).map (fun f => f.1) = fs.map (fun f => f.1) := by
  induction fs with
  | nil => rfl
  | cons x tl ih =>
    obtain ⟨n, v⟩ := x
    simp only [setField]
    split <;> simp [ih]

theorem getField_default (fs : List (String × GoVal)) (name : String) (d d2 : GoVal)
    (h : name ∈ fs.map (fun f => f.1)) : getField fs name d = getField fs name d2 := by
  induction fs with
  | nil => simp at h
  | cons x tl ih =>
    obtain ⟨n, v⟩ := x
    by_cases hn : n = name
    · simp [getField, hn]
    · have h2 : name ∈ tl.map (fun f => f.1) := by
        simp only [List.map_cons, List.mem_cons] at h
        rcases h with h | h
        · exact absurd h.symm hn
        · exact h
      have := ih h2
      simpa [getField, hn] using this

theorem getField_setField_same (fs : List (String × GoVal)) (name : String) (w d : GoVal)
    (h : name ∈ fs.map (fun f => f.1)) : getField (setField fs name w) name d = w := by
  induction fs with
  | nil => simp at h
  | cons x tl ih =>
    obtain ⟨n, v⟩ := x
    by_cases hn : n = name
    · simp [setField, getField, hn]
    · have h2 : name ∈ tl.map (fun f => f.1) := by
        simp only [List.map_cons, List.mem_cons] at h
        rcases h with h | h
        · exact absurd h.symm hn
        · exact h
      have := ih h2
      simpa [setField, getField, hn] using this

theorem getField_setField_other (fs : List (String × GoVal)) (name other : String) (w d : GoVal)
    (h : other ≠ name) : getField (setField fs other w) name d = getField fs name d := by
  induction fs with
  | nil => rfl
  | cons x tl ih =>
    obtain ⟨n, v⟩ := x
    by_cases hn : n = other
    · have hn2 : ¬ n = name := by rw [hn]; exact h
      simp [setField, getField, hn, h]
    · by_cases hn2 : n = name
      · subst hn2
        simp [setField, getField, hn]
      · simpa [setField, getField, hn, hn2] using ih

/-- The field `f` of the decoded struct is the result of decoding, in the order
of the text, the values of the members whose key selects `f`. -/
theorem decodeMembers_field (fields : List (String × String × GoType))
    (hnd : (fields.map (fun f => f.1)).Nodup) (f : String × String × GoType)
    (hf : f ∈ fields) (d : GoVal) :
    ∀ (kvs : List (String × JSON)) (cur : List (String × GoVal)),
      f.1 ∈ cur.map (fun g => g.1) →
      getField (decodeMembers kvs fields cur).1 f.1 d =
        (kvs.filter (fun kv => selects fields f.1 kv.1)).foldl
          (fun v kv => (decodeValue kv.2 f.2.2 v).1) (getField cur f.1 d) := by
  intro kvs
  induction kvs with
  | nil => intro cur _; simp [decodeMembers]
  | cons kv tl ih =>
    intro cur hcur
    obtain ⟨k, v⟩ := kv
    simp only [decodeMembers, List.filter_cons]
    cases hfind : findField fields k with
    | none =>
      have hsel : selects fields f.1 k = false := by simp [selects, hfind]
      simpa [hsel] using ih cur hcur
    | some g =>
      have hg : g ∈ fields := findField_mem fields k g hfind
      by_cases hname : g.1 = f.1
      · have hsel : selects fields f.1 k = true := by simp [selects, hfind, hname]
        have hgf : g = f := field_eq_of_name fields hnd f g hf hg hname
        subst hgf
        have hcur2 : g.1 ∈ (setField cur g.1
            (decodeValue v g.2.2 (getField cur g.1 (zero g.2.2))).1).map (fun x => x.1) := by
          rw [setField_names]; exact hcur
        simp only [hsel, if_true, List.foldl_cons]
        rw [ih _ hcur2, getField_setField_same cur g.1 _ d hcur,
          getField_default cur g.1 (zero g.2.2) d hcur]
      · have hsel : selects fields f.1 k = false := by simp [selects, hfind, hname]
        have hcur2 : f.1 ∈ (setField cur g.1
            (decodeValue v g.2.2 (getField cur g.1 (zero g.2.2))).1).map (fun x => x.1) := by
          rw [setField_names]; exact hcur
        simp only [hsel, Bool.false_eq_true, if_false]
        rw [ih _ hcur2, getField_setField_other cur f.1 g.1 _ d hname]

theorem zeroFields_names (fields : List (String × String × GoType)) :
    (zeroFields fields).map (fun f => f.1) = fields.map (fun f => f.1) := by
  induction fields with
  | nil => simp [zeroFields]
  | cons x tl ih =>
    obtain ⟨n, k, t⟩ := x
    simp [zeroFields, ih]

theorem getField_zeroFields (fields : List (String × String × GoType))
    (hnd : (fields.map (fun f => f.1)).Nodup) (f : String × String × GoType)
    (hf : f ∈ fields) (d : GoVal) : getField (zeroFields fields) f.1 d = zero f.2.2 := by
  induction fields with
  | nil => simp at hf
  | cons x tl ih =>
    obtain ⟨n, k, t⟩ := x
    by_cases hn : n = f.1
    · have hx : (n, k, t) = f :=
        field_eq_of_name _ hnd f (n, k, t) hf (List.mem_cons_self _ _) hn
      subst hx
      simp [zeroFields, getField]
    · have hf2 : f ∈ tl := by
        rcases List.mem_cons.mp hf with h | h
        · exact absurd (by rw [h]) hn
        · exact h
      have hnd2 : (tl.map (fun f => f.1)).Nodup := (List.nodup_cons.mp hnd).2
      have := ih hnd2 hf2
      simpa [zeroFields, getField, hn] using this

theorem profileFields_nodup : (profileFields.map (fun f => f.1)).Nodup := by
  decide

theorem unmarshal_of_object (env : Env) (body : Bytes) (kvs : List (String × JSON))
    (h : env.scanJSON body = .ok (.obj kvs)) :
    Unmarshal env body Profile (zero Profile) =
      (.struct (decodeMembers kvs profileFields (zeroFields profileFields)).1,
        (decodeMembers kvs profileFields (zeroFields profileFields)).2) := by
  simp [Unmarshal, h, Profile, decodeValue, zero, structFields]

theorem fieldsWellFormed_mem (fields : List (String × String × GoType))
    (h : fieldsWellFormed fields = true) (f : String × String × GoType) (hf : f ∈ fields) :
    wellFormed f.2.2 = true := by
  induction fields with
  | nil => simp at hf
  | cons x tl ih =>
    obtain ⟨n, k, t⟩ := x
    simp only [fieldsWellFormed, Bool.and_eq_true] at h
    rcases List.mem_cons.mp hf with h1 | h1
    · rw [h1]; exact h.1
    · exact ih h.2 h1

mutual
theorem decodeValue_eq_denote (j : JSON) :
    ∀ (t : GoType), wellFormed t = true → conforms j t = true → distinctKeys j t = true →
      decodeValue j t (zero t) = (denote j t, none) := by
  intro t hw hc hd
  cases j with
  | null => cases t <;> simp [decodeValue, denote, zero]
  | bool b => cases t <;> simp_all [decodeValue, denote, conforms]
  | str s => cases t <;> simp_all [decodeValue, denote, conforms]
  | num lit =>
    cases t <;> simp_all [decodeValue, denote, conforms]
    cases hp : parseInt64 lit with
    | none => simp [hp] at hc
    | some n => simp
  | arr xs =>
    cases xs with
    | nil => cases t <;> simp_all [decodeValue, denote, conforms, denoteElems]
    | cons x tl =>
      cases t with
      | slice et =>
        simp only [conforms] at hc
        simp only [distinctKeys] at hd
        simp only [wellFormed] at hw
        have h := decodeElems_eq_denote (x :: tl) et hw hc hd
        simp only [decodeValue, denote, zero, backing, h]
      | _ => simp [conforms] at hc
  | obj kvs =>
    cases t with
    | struct name fields =>
      simp only [conforms] at hc
      simp only [distinctKeys] at hd
      simp only [wellFormed, Bool.and_eq_true, decide_eq_true_eq] at hw
      have h := decodeMembers_eq_denote kvs fields (zeroFields fields) hw.2 hc hd
        (fun kv _ f hf => getField_zeroFields fields hw.1 f (findField_mem fields kv.1 f hf) _)
      simp only [decodeValue, denote, zero, structFields, h]
    | _ => simp [conforms] at hc
termination_by sizeOf j
theorem decodeElems_eq_denote (xs : List JSON) :
    ∀ (et : GoType), wellFormed et = true → elemsConform xs et = true →
      elemsDistinct xs et = true → decodeElems xs et [] = (denoteElems xs et, [], none) := by
  intro et hw hc hd
  cases xs with
  | nil => simp [decodeElems, denoteElems]
  | cons x tl =>
    simp only [elemsConform, Bool.and_eq_true] at hc
    simp only [elemsDistinct, Bool.and_eq_true] at hd
    have h1 := decodeValue_eq_denote x et hw hc.1 hd.1
    have h2 := decodeElems_eq_denote tl et hw hc.2 hd.2
    simp [decodeElems, denoteElems, h1, h2]
termination_by sizeOf xs
theorem decodeMembers_eq_denote :
    ∀ (kvs : List (String × JSON)) (fields : List (String × String × GoType))
      (cur : List (String × GoVal)),
      fieldsWellFormed fields = true → membersConform kvs fields = true →
      membersDistinct kvs fields = true →
      (∀ kv ∈ kvs, ∀ f, findField fields kv.1 = some f →
        getField cur f.1 (zero f.2.2) = zero f.2.2) →
      decodeMembers kvs fields cur = (denoteMembers kvs fields cur, none)
  | [], fields, cur, _, _, _, _ => by simp [decodeMembers, denoteMembers]
  | (k, v) :: tl, fields, cur, hw, hc, hd, hz => by
    simp only [membersConform, Bool.and_eq_true] at hc
    simp only [membersDistinct, Bool.and_eq_true] at hd
    cases hf : findField fields k with
    | none =>
      have h := decodeMembers_eq_denote tl fields cur hw hc.2 hd.2
        (fun kv hkv f hfk => hz kv (List.mem_cons_of_mem _ hkv) f hfk)
      simp only [decodeMembers, denoteMembers, hf, h]
    | some f =>
      simp only [hf, Bool.and_eq_true, List.all_eq_true, Bool.not_eq_true'] at hc hd
      have hwf : wellFormed f.2.2 = true :=
        fieldsWellFormed_mem fields hw f (findField_mem fields k f hf)
      have h1 := decodeValue_eq_denote v f.2.2 hwf hc.1 hd.1.1
      have hcur : getField cur f.1 (zero f.2.2) = zero f.2.2 :=
        hz (k, v) (List.mem_cons_self _ _) f hf
      have h2 := decodeMembers_eq_denote tl fields (setField cur f.1 (denote v f.2.2)) hw hc.2 hd.2
        (by
          intro kv hkv g hg
          have hsel := hd.1.2 kv hkv
          have hne : f.1 ≠ g.1 := by
            intro heq
            simp [selects, hg, heq] at hsel
          rw [getField_setField_other cur g.1 f.1 _ _ hne]
          exact hz kv (List.mem_cons_of_mem _ hkv) g hg)
      simp only [decodeMembers, denoteMembers, hf, hcur, h1, h2]
      rfl
termination_by kvs => sizeOf kvs
end


theorem orElse_error_kind (a b : Option GoError)
    (ha : a = none ∨ ∃ v ty, a = some (.unmarshalTypeError v ty))
    (hb : b = none ∨ ∃ v ty, b = some (.unmarshalTypeError v ty)) :
    (a <|> b) = none ∨ ∃ v ty, (a <|> b) = some (.unmarshalTypeError v ty) := by
  rcases ha with ha | ⟨v, ty, ha⟩
  · subst ha
    simpa using hb
  · subst ha
    exact Or.inr ⟨v, ty, by simp⟩

mutual
theorem decodeValue_error_kind :
    ∀ (j : JSON) (t : GoType) (cur : GoVal),
      (decodeValue j t cur).2 = none ∨
        ∃ v ty, (decodeValue j t cur).2 = some (.unmarshalTypeError v ty)
  | .null, t, cur => by cases t <;> simp [decodeValue]
  | .bool b, t, cur => by cases t <;> simp [decodeValue, typeError]
  | .str s, t, cur => by cases t <;> simp [decodeValue, typeError]
  | .num lit, t, cur => by
    cases t <;> simp [decodeValue, typeError]
    cases parseInt64 lit <;> simp
  | .arr [], t, cur => by cases t <;> simp [decodeValue, typeError]
  | .arr (x :: tl), t, cur => by
    cases t with
    | slice et =>
      simp only [decodeValue]
      exact decodeElems_error_kind (x :: tl) et (backing cur)
    | _ => simp [decodeValue, typeError]
  | .obj kvs, t, cur => by
    cases t with
    | struct name fields =>
      simp only [decodeValue]
      exact decodeMembers_error_kind kvs fields (structFields cur)
    | _ => simp [decodeValue, typeError]
termination_by j => sizeOf j
theorem decodeElems_error_kind :
    ∀ (xs : List JSON) (et : GoType) (back : List GoVal),
      (decodeElems xs et back).2.2 = none ∨
        ∃ v ty, (decodeElems xs et back).2.2 = some (.unmarshalTypeError v ty)
  | [], et, back => by simp [decodeElems]
  | x :: tl, et, back => by
    simp only [decodeElems]
    exact orElse_error_kind _ _ (decodeValue_error_kind x et _) (decodeElems_error_kind tl et _)
termination_by xs => sizeOf xs
theorem decodeMembers_error_kind :
    ∀ (kvs : List (String × JSON)) (fields : List (String × String × GoType))
      (cur : List (String × GoVal)),
      (decodeMembers kvs fields cur).2 = none ∨
        ∃ v ty, (decodeMembers kvs fields cur).2 = some (.unmarshalTypeError v ty)
  | [], fields, cur => by simp [decodeMembers]
  | (k, v) :: tl, fields, cur => by
    simp only [decodeMembers]
    cases hf : findField fields k with
    | none => exact decodeMembers_error_kind tl fields cur
    | some f =>
      exact orElse_error_kind _ _ (decodeValue_error_kind v f.2.2 _)
        (decodeMembers_error_kind tl fields _)
termination_by kvs => sizeOf kvs
end

/-- The field `f` after decoding is what the last member that selects it left. -/
theorem decodeMembers_field_last (fields : List (String × String × GoType))
    (hnd : (fields.map (fun f => f.1)).Nodup) (f : String × String × GoType)
    (hf : f ∈ fields) (d : GoVal) (pre post : List (String × JSON)) (k : String) (v : JSON)
    (cur : List (String × GoVal)) (hcur : f.1 ∈ cur.map (fun g => g.1))
    (hk : selects fields f.1 k = true)
    (hpost : ∀ kv ∈ post, selects fields f.1 kv.1 = false) :
    ∃ prev, getField (decodeMembers (pre ++ (k, v) :: post) fields cur).1 f.1 d =
      (decodeValue v f.2.2 prev).1 := by
  rw [decodeMembers_field fields hnd f hf d _ cur hcur]
  have hnone : post.filter (fun kv => selects fields f.1 kv.1) = [] := by
    rw [List.filter_eq_nil_iff]
    intro kv hkv
    simp [hpost kv hkv]
  rw [List.filter_append, List.filter_cons, if_pos hk, hnone, List.foldl_append]
  exact ⟨_, rfl⟩

theorem wellFormed_Profile : wellFormed Profile = true := by
  decide

/-- C9 (as stated, refuted): the body with `id` equal to the number 5 is a
valid JSON object, and decoding it into `Profile` fails with a type error,
since `Id` is a string. -/
theorem Unmarshal_profile_wrong_type :
    (servingEnv 200 numericIdBody [(numericIdBody, numericIdValue)]).scanJSON numericIdBody =
      .ok (.obj [("id", .num "5")]) ∧
    (Unmarshal (servingEnv 200 numericIdBody [(numericIdBody, numericIdValue)]) numericIdBody
      Profile (zero Profile)).2 = some (.unmarshalTypeError "number" "string") ∧
    ¬ (Unmarshal (servingEnv 200 numericIdBody [(numericIdBody, numericIdValue)]) numericIdBody
      Profile (zero Profile)).2 = none := by
  have h : (Unmarshal (servingEnv 200 numericIdBody [(numericIdBody, numericIdValue)])
      numericIdBody Profile (zero Profile)).2 = some (.unmarshalTypeError "number" "string") := rfl
  refine ⟨rfl, h, ?_⟩
  rw [h]
  exact fun hc => Option.noConfusion hc

/-- C9 (amended): for a response body that is a valid JSON object, decoding
into `Profile` succeeds exactly when every member whose key selects a `Profile`
field carries a value of that field's type, and returns an `UnmarshalTypeError`
otherwise, so a missing or an unknown key never makes it fail.  Each field that
no key selects is left at its zero value.  Each field whose key is present is
set from it: a string, integer or boolean field holds the string, the integer
of the literal, the boolean of the last member that selects it; a field that
one member selects, with a value of its type in which no key repeats, holds
what that value stands for, and a whole body of that kind decodes to what it
stands for.  The body with only `id` = "abc123" and `firstName` = "Ann" gives
the zero `Profile` with `Id` = "abc123" and `FirstName` = "Ann", and no error;
the body with a connection count, a `pictureUrls` object and a `positions`
object of total 2 and two position records gives the count, the picture URL
and the two positions, each set where its JSON has a member. -/
theorem Unmarshal_profile_object (env : Env) (body : Bytes) (kvs : List (String × JSON))
    (h : env.scanJSON body = .ok (.obj kvs)) :
    ((Unmarshal env body Profile (zero Profile)).2 = none ↔
      ∀ kv ∈ kvs, ∀ f, findField profileFields kv.1 = some f → conforms kv.2 f.2.2 = true) ∧
    ((¬ ∀ kv ∈ kvs, ∀ f, findField profileFields kv.1 = some f → conforms kv.2 f.2.2 = true) →
      ∃ v ty, (Unmarshal env body Profile (zero Profile)).2 =
        some (.unmarshalTypeError v ty)) ∧
    (∀ f ∈ profileFields, (∀ kv ∈ kvs, selects profileFields f.1 kv.1 = false) →
      getField (structFields (Unmarshal env body Profile (zero Profile)).1) f.1 (zero f.2.2) =
        zero f.2.2) ∧
    (∀ f ∈ profileFields, ∀ (pre post : List (String × JSON)) (k : String) (v : JSON),
      kvs = pre ++ (k, v) :: post → selects profileFields f.1 k = true →
      (∀ kv ∈ post, selects profileFields f.1 kv.1 = false) →
      (∀ s, f.2.2 = .string → v = .str s →
        getField (structFields (Unmarshal env body Profile (zero Profile)).1) f.1 (zero f.2.2) =
          .string s) ∧
      (∀ lit n, f.2.2 = .int → v = .num lit → parseInt64 lit = some n →
        getField (structFields (Unmarshal env body Profile (zero Profile)).1) f.1 (zero f.2.2) =
          .int n) ∧
      (∀ b, f.2.2 = .bool → v = .bool b →
        getField (structFields (Unmarshal env body Profile (zero Profile)).1) f.1 (zero f.2.2) =
          .bool b)) ∧
    (∀ f ∈ profileFields, ∀ (k : String) (v : JSON),
      kvs.filter (fun kv => selects profileFields f.1 kv.1) = [(k, v)] →
      conforms v f.2.2 = true → distinctKeys v f.2.2 = true →
      getField (structFields (Unmarshal env body Profile (zero Profile)).1) f.1 (zero f.2.2) =
        denote v f.2.2) ∧
    (membersConform kvs profileFields = true → membersDistinct kvs profileFields = true →
      Unmarshal env body Profile (zero Profile) = (denote (.obj kvs) Profile, none)) ∧
    (∀ f ∈ profileFields,
      getField (structFields (Unmarshal env body Profile (zero Profile)).1) f.1 (zero f.2.2) =
        (kvs.filter (fun kv => selects profileFields f.1 kv.1)).foldl
          (fun v kv => (decodeValue kv.2 f.2.2 v).1) (zero f.2.2)) ∧
    (kvs = [("id", .str "abc123"), ("firstName", .str "Ann")] →
      Unmarshal env body Profile (zero Profile) = (annProfile, none)) ∧
    (JSON.obj kvs = positionsValue →
      Unmarshal env body Profile (zero Profile) = (positionsProfile, none)) := by
  have hU := unmarshal_of_object env body kvs h
  have hnames : ∀ f ∈ profileFields,
      f.1 ∈ (zeroFields profileFields).map (fun g => g.1) := by
    intro f hf
    rw [zeroFields_names]
    exact List.mem_map_of_mem _ hf
  have hfield : ∀ f ∈ profileFields,
      getField (structFields (Unmarshal env body Profile (zero Profile)).1) f.1 (zero f.2.2) =
        (kvs.filter (fun kv => selects profileFields f.1 kv.1)).foldl
          (fun v kv => (decodeValue kv.2 f.2.2 v).1) (zero f.2.2) := by
    intro f hf
    rw [hU]
    simp only [structFields]
    rw [decodeMembers_field profileFields profileFields_nodup f hf (zero f.2.2) kvs
      (zeroFields profileFields) (hnames f hf),
      getField_zeroFields profileFields profileFields_nodup f hf]
  refine ⟨?_, ?_, ?_, ?_, ?_, ?_, hfield, ?_, ?_⟩
  · rw [hU]
    simp only []
    rw [decodeMembers_ok_iff, membersConform_iff]
  · intro hbad
    rw [hU]
    rcases decodeMembers_error_kind kvs profileFields (zeroFields profileFields) with hn | he
    · exact absurd ((membersConform_iff kvs profileFields).mp
        ((decodeMembers_ok_iff kvs profileFields (zeroFields profileFields)).mp hn)) hbad
    · exact he
  · intro f hf habsent
    rw [hfield f hf]
    have hnone : kvs.filter (fun kv => selects profileFields f.1 kv.1) = [] := by
      rw [List.filter_eq_nil_iff]
      intro kv hkv
      simp [habsent kv hkv]
    rw [hnone]
    rfl
  · intro f hf pre post k v hkvs hk hpost
    obtain ⟨prev, hprev⟩ := decodeMembers_field_last profileFields profileFields_nodup f hf
      (zero f.2.2) pre post k v (zeroFields profileFields) (hnames f hf) hk hpost
    have hval : getField (structFields (Unmarshal env body Profile (zero Profile)).1) f.1
        (zero f.2.2) = (decodeValue v f.2.2 prev).1 := by
      rw [hU, hkvs]
      exact hprev
    refine ⟨?_, ?_, ?_⟩
    · intro s ht hv
      rw [hval, ht, hv]
      simp [decodeValue]
    · intro lit n ht hv hp
      rw [hval, ht, hv]
      simp [decodeValue, hp]
    · intro b ht hv
      rw [hval, ht, hv]
      simp [decodeValue]
  · intro f hf k v hfilter hc hd
    rw [hfield f hf, hfilter]
    have hw : wellFormed f.2.2 = true :=
      fieldsWellFormed_mem profileFields
        (by have := wellFormed_Profile; simp only [Profile, wellFormed, Bool.and_eq_true] at this
            exact this.2) f hf
    simp only [List.foldl_cons, List.foldl_nil]
    rw [decodeValue_eq_denote v f.2.2 hw hc hd]
  · intro hc hd
    have := decodeValue_eq_denote (.obj kvs) Profile wellFormed_Profile
      (by simpa [Profile, conforms] using hc) (by simpa [Profile, distinctKeys] using hd)
    simp only [Unmarshal, h]
    exact this
  · intro hk
    subst hk
    rw [hU]
    rfl
  · intro hk
    have hk2 : kvs = [("numConnections", .num "500"), ("numConnectionsCapped", .bool true),
        ("pictureUrls", .obj [("_total", .num "1"),
          ("values", .arr [.str "https://example.com/p.jpg"])]),
        ("positions", .obj
        [("_total", .num "2"),
         ("values", .arr
           [.obj [("id", .num "7"), ("title", .str "Engineer"), ("isCurrent", .bool true),
                  ("company", .obj [("name", .str "Acme")])],
            .obj [("id", .num "8"),
                  ("startDate", .obj [("year", .num "2012"), ("month", .num "5")])]])])] := by
      unfold positionsValue at hk
      exact JSON.obj.inj hk
    subst hk2
    rw [hU]
    rfl

set_option maxRecDepth 100000 in
theorem Unmarshal_profile_object_witness :
    (servingEnv 200 annBody [(annBody, annValue)]).scanJSON annBody =
      .ok (.obj [("id", .str "abc123"), ("firstName", .str "Ann")]) ∧
    Unmarshal (servingEnv 200 annBody [(annBody, annValue)]) annBody Profile (zero Profile) =
      (annProfile, none) ∧
    getField (structFields annProfile) "Id" (.string "") = .string "abc123" ∧
    getField (structFields annProfile) "FirstName" (.string "") = .string "Ann" ∧
    getField (structFields annProfile) "LastName" (.string "") = .string "" ∧
    (BasicProfile (servingEnv 200 annBody [(annBody, annValue)]) (some (Client.mk "token"))
      []).outcome = .returned (some annProfile) none ∧
    (BasicProfile (servingEnv 200 positionsBody [(positionsBody, positionsValue)])
      (some (Client.mk "token")) ["positions"]).outcome =
      .returned (some positionsProfile) none :=
  ⟨rfl,
    (Unmarshal_profile_object (servingEnv 200 annBody [(annBody, annValue)]) annBody
      [("id", .str "abc123"), ("firstName", .str "Ann")] rfl).2.2.2.2.2.2.2.1 rfl,
    rfl, rfl, rfl, rfl, rfl⟩

end Linkedin
